import Mathlib

/-!
Verification of the gorilla/context request-scoped attribute store.

The repository holds three implementations of the same module:
* `src/unnamed/part_002` — the registry variant: a process-wide map
  `data : map[*http.Request]map[interface{}]interface{}` with a parallel
  creation-time map `datat`, guarded by one RWMutex.  Modelled below in
  namespace `Registry` (pure state passing; the lock serialises every
  operation, so each Go critical section becomes one state transition).
* `src/unnamed/part_001` — an older registry keyed by `Ctxt{req, key}`
  pairs.  Modelled (the parts the claims cite) in namespace `KeyedRegistry`.
* `src/context.go` — the attached-store variant: the store is carried by a
  wrapper around `r.Body`.  Go maps are reference values, so this variant
  is modelled with an explicit heap of stores (`StateB.heap`) addressed by
  allocation index; `r.Body`'s decoration state is the `bodies` finite map.
  Namespace `Attached`.
* For the aliasing/defensive-copy claim about `part_002`'s `GetAll`, the
  registry variant is additionally modelled with the same explicit-heap
  reference semantics in namespace `RegistryRef`, since a pure value model
  cannot distinguish a copied map from an aliased one.

Requests and keys are `interface{}`-like opaque identities in Go; they are
modelled as `Nat` identifiers.  Values (`interface{}`, where `nil` is a
storable value distinct from "key absent") are modelled by `GoVal` with an
explicit `nil` constructor.  Go's `time.Now().Unix()` is passed in
explicitly as a `now : Int` parameter wherever the source reads the clock.
-/

/-- Request identity (`*http.Request` used only as an opaque key). -/
abbrev ReqId := Nat

/-- Attribute key (`interface{}` used only under equality). -/
abbrev AttrKey := Nat

/-- A Go `interface{}` value; `nil` is itself a storable value. -/
inductive GoVal where
  | nil : GoVal
  | num : Nat → GoVal
  | str : String → GoVal
  deriving DecidableEq

/-- One request's attribute store: `map[interface{}]interface{}`. -/
abbrev Store := List (AttrKey × GoVal)

/-- Go map read `m[x]` as an `Option` (`none` for a missing key). -/
def alookup {α β : Type} [DecidableEq α] : List (α × β) → α → Option β
  | [], _ => none
  | (a, b) :: t, x => if a = x then some b else alookup t x

/-- Go map write `m[x] = y` (update in place, insert if missing). -/
def aset {α β : Type} [DecidableEq α] : List (α × β) → α → β → List (α × β)
  | [], x, y => [(x, y)]
  | (a, b) :: t, x, y => if a = x then (x, y) :: t else (a, b) :: aset t x y

/-- Go map delete `delete(m, x)`. -/
def aerase {α β : Type} [DecidableEq α] : List (α × β) → α → List (α × β)
  | [], _ => []
  | (a, b) :: t, x => if a = x then aerase t x else (a, b) :: aerase t x

/-- Heap update: write store `st` at address `ref`. -/
def hupd (h : Nat → Store) (ref : Nat) (st : Store) : Nat → Store :=
  fun ρ => if ρ = ref then st else h ρ

/-- Outcome of running a wrapped handler: normal return, or a panic that
keeps propagating (a Go `defer` runs in both cases). -/
inductive Outcome where
  | normal : Outcome
  | panicked : Outcome
  deriving DecidableEq

namespace Registry

/-!
Model of `src/unnamed/part_002` (the registry variant).

The package-level state is
    data  map[*http.Request]map[interface{}]interface{}
    datat map[*http.Request]int64
Every operation runs under the single `mutex`, so each one is a single
state transition.  `data[r] == nil` coincides with `r` being absent from
`data`, because the code only ever stores maps freshly made by `make`.
-/

/-- The package-level `data` and `datat` maps of `part_002`. -/
structure StateA where
  data : List (ReqId × Store)
  datat : List (ReqId × Int)
  deriving DecidableEq

/-- The state at process start: both maps empty. -/
def StateA.empty : StateA := ⟨[], []⟩

/-- `part_002` lines 20–28: `Set(r, key, val)`.  If `data[r] == nil`,
make a fresh store and record `datat[r] = time.Now().Unix()` (passed in
as `now`); then `data[r][key] = val`. -/
def Set (s : StateA) (now : Int) (r : ReqId) (k : AttrKey) (v : GoVal) : StateA :=
  match alookup s.data r with
  | some st => { s with data := aset s.data r (aset st k v) }
  | none =>
      { data := aset s.data r (aset ([] : Store) k v),
        datat := aset s.datat r now }

/-- `part_002` lines 31–39: `Get(r, key)` returns `data[r][key]`, or Go
`nil` when the request has no store or the key is unset. -/
def Get (s : StateA) (r : ReqId) (k : AttrKey) : GoVal :=
  match alookup s.data r with
  | some st =>
      match alookup st k with
      | some v => v
      | none => GoVal.nil
  | none => GoVal.nil

/-- `part_002` lines 42–50: `GetOk(r, key)` returns the comma-ok pair of
the inner map access, and `(nil, false)` for an unregistered request. -/
def GetOk (s : StateA) (r : ReqId) (k : AttrKey) : GoVal × Bool :=
  match alookup s.data r with
  | some st =>
      match alookup st k with
      | some v => (v, true)
      | none => (GoVal.nil, false)
  | none => (GoVal.nil, false)

/-- `part_002` lines 53–64: `GetAll(r)` returns a freshly copied map of
`data[r]`, or `nil` (here `none`) for an unregistered request.  The copy
is value-identical to `data[r]`; its freshness (non-aliasing) is treated
in the `RegistryRef` model below. -/
def GetAll (s : StateA) (r : ReqId) : Option Store :=
  match alookup s.data r with
  | some st => some st
  | none => none

/-- `part_002` lines 68–77: `GetAllOk(r)` always returns a (possibly
empty) fresh map, plus the comma-ok flag of `data[r]`. -/
def GetAllOk (s : StateA) (r : ReqId) : Store × Bool :=
  match alookup s.data r with
  | some st => (st, true)
  | none => ([], false)

/-- `part_002` lines 80–86: `Delete(r, key)` deletes from `data[r]` when
that store exists, and does nothing otherwise. -/
def Delete (s : StateA) (r : ReqId) (k : AttrKey) : StateA :=
  match alookup s.data r with
  | some st => { s with data := aset s.data r (aerase st k) }
  | none => s

/-- `part_002` lines 92–102: `Clear(r)` / `clear(r)` delete `data[r]`
and `datat[r]`. -/
def Clear (s : StateA) (r : ReqId) : StateA :=
  ⟨aerase s.data r, aerase s.datat r⟩

/-- Timestamp read `datat[r]`: a missing entry reads as Go's zero value 0. -/
def tsOrZero (s : StateA) (r : ReqId) : Int :=
  (alookup s.datat r).getD 0

/-- The purge condition `datat[r] < min` of `part_002` line 123. -/
def stale (s : StateA) (minT : Int) (r : ReqId) : Bool :=
  decide (tsOrZero s r < minT)

/-- `part_002` lines 113–131: `Purge(maxAge)`.  For `maxAge <= 0` both
maps are replaced by fresh empty ones and the previous `len(data)` is
returned.  Otherwise the loop visits every request in `data` (deleting
the visited key never hides another pending key, and `clear` only
removes the visited request's own entries, so each key is visited once
with its original timestamp) and clears those with `datat[r] < now -
maxAge`; this is exactly a filter, and the count is the number of
requests removed. -/
def Purge (s : StateA) (now maxAge : Int) : StateA × Nat :=
  if maxAge ≤ 0 then
    (StateA.empty, s.data.length)
  else
    ((⟨s.data.filter fun p => ! stale s (now - maxAge) p.1,
       s.datat.filter fun q =>
         ! ((alookup s.data q.1).isSome && stale s (now - maxAge) q.1)⟩ : StateA),
     (s.data.filter fun p => stale s (now - maxAge) p.1).length)

/-- `part_002` lines 135–140: `ClearHandler(h)` runs `h` with
`defer Clear(r)`: the clear happens after `h` on every exit path, normal
return and panic alike, and the outcome of `h` (including a propagating
panic) is unchanged.  A handler is modelled as a state transformer on the
registry returning its outcome; response writing is outside the store. -/
def ClearHandler (h : ReqId → StateA → StateA × Outcome) :
    ReqId → StateA → StateA × Outcome :=
  fun r s => (Clear (h r s).1 r, (h r s).2)

end Registry

namespace KeyedRegistry

/-!
Model of `src/unnamed/part_001` (the older registry, keyed by
`Ctxt{req, key}` pairs), for the parts the claims cite: `Set` (timestamp
recording), `Get` (defaulting read) and `Purge`.
-/

/-- The package-level `data : map[Ctxt]interface{}` and
`datat : map[*http.Request]int64` of `part_001`. -/
structure State1 where
  data : List ((ReqId × AttrKey) × GoVal)
  datat : List (ReqId × Int)
  deriving DecidableEq

/-- `part_001` lines 25–32: `Set` writes `data[Ctxt{r, key}] = val` and
records `datat[r] = time.Now().Unix()` only when `r` has no timestamp. -/
def Set (s : State1) (now : Int) (r : ReqId) (k : AttrKey) (v : GoVal) : State1 :=
  ⟨aset s.data (r, k) v,
   match alookup s.datat r with
   | some _ => s.datat
   | none => aset s.datat r now⟩

/-- `part_001` lines 35–39: `Get` returns `data[Ctxt{r, key}]`, whose Go
zero value for a missing entry is `nil`. -/
def Get (s : State1) (r : ReqId) (k : AttrKey) : GoVal :=
  (alookup s.data (r, k)).getD GoVal.nil

/-- The state at process start: both maps empty. -/
def State1.empty : State1 := ⟨[], []⟩

/-- The purge condition `datat[ctxt.req] < min` of `part_001` line 88: a
request missing from `datat` reads as Go's zero value 0. -/
def stale (s : State1) (minT : Int) (r : ReqId) : Bool :=
  decide ((alookup s.datat r).getD 0 < minT)

/-- `part_001` lines 77–95: `Purge(maxAge)`.  For `maxAge <= 0` both maps
are replaced by fresh empty ones and the previous `len(data)` — the
number of `(request, key)` pair entries, since `data` is keyed by
`Ctxt{req, key}` — is returned.  Otherwise the loop ranges over `data`'s
pair entries and, when it reaches an entry of a stale request, runs
`clear(ctxt.req)` (removing all of that request's pairs and its
timestamp) and increments the count once; pairs deleted before being
reached are not visited, and clearing one request never changes another
request's timestamp, so the removals are a filter on the request's
staleness and the count is the number of distinct stale requests
occurring in `data`. -/
def Purge (s : State1) (now maxAge : Int) : State1 × Nat :=
  if maxAge ≤ 0 then
    (State1.empty, s.data.length)
  else
    ((⟨s.data.filter fun p => ! stale s (now - maxAge) p.1.1,
       s.datat.filter fun q =>
         ! ((s.data.any fun p => decide (p.1.1 = q.1)) &&
            stale s (now - maxAge) q.1)⟩ : State1),
     ((s.data.map fun p => p.1.1).dedup.filter (stale s (now - maxAge))).length)

end KeyedRegistry

namespace Attached

/-!
Model of `src/context.go` (the attached-store variant).

`attributes(r)` type-asserts `r.Body`; if it is not yet a
`decoratedReadCloser` it wraps it and attaches a pointer to a freshly
made `attributeStore`.  Go maps are reference values, so the model keeps
an explicit heap of stores addressed by allocation index (`next` is the
next fresh address) and `bodies` maps a request to the address its
decorated body carries; an undecorated request is absent from `bodies`.
The wrapper's transparent `Read`/`Close` forwarding carries no store
state and is not modelled.
-/

/-- The decoration state of all requests plus the heap of store objects. -/
structure StateB where
  heap : Nat → Store
  next : Nat
  bodies : List (ReqId × Nat)

/-- The state in which no request has been decorated yet. -/
def StateB.init : StateB := ⟨fun _ => [], 0, []⟩

/-- The contents of the store object at address `ref`. -/
def deref (s : StateB) (ref : Nat) : Store := s.heap ref

/-- `context.go` lines 47–52: `peekAttributes` — the address carried by
`r.Body` if it is already decorated. -/
def peekAttributes (s : StateB) (r : ReqId) : Option Nat :=
  alookup s.bodies r

/-- `context.go` lines 33–45: `attributes(r)` returns the attached store
(as its address), decorating `r` with a fresh empty store first when
needed. -/
def attributes (s : StateB) (r : ReqId) : Nat × StateB :=
  match alookup s.bodies r with
  | some ref => (ref, s)
  | none =>
      (s.next,
       ⟨hupd s.heap s.next [], s.next + 1, aset s.bodies r s.next⟩)

/-- `context.go` lines 55–58: `Set` writes through `attributes(r)`. -/
def Set (s : StateB) (r : ReqId) (k : AttrKey) (v : GoVal) : StateB :=
  let a := attributes s r
  { a.2 with heap := hupd a.2.heap a.1 (aset (a.2.heap a.1) k v) }

/-- `context.go` lines 61–67: `Get` reads through `attributes(r)` — note
that this decorates an undecorated request, so the (possibly changed)
state is returned too. -/
def Get (s : StateB) (r : ReqId) (k : AttrKey) : GoVal × StateB :=
  let a := attributes s r
  (match alookup (a.2.heap a.1) k with
   | some v => v
   | none => GoVal.nil,
   a.2)

/-- `context.go` lines 70–74: `GetOk`, also through `attributes(r)`. -/
def GetOk (s : StateB) (r : ReqId) (k : AttrKey) : (GoVal × Bool) × StateB :=
  let a := attributes s r
  (match alookup (a.2.heap a.1) k with
   | some v => (v, true)
   | none => (GoVal.nil, false),
   a.2)

/-- `context.go` lines 77–82: `GetAll` only peeks; it returns `*atts` —
the attached map itself (its address), not a copy — or `nil`.  It never
decorates, so it returns no new state. -/
def GetAll (s : StateB) (r : ReqId) : Option Nat :=
  peekAttributes s r

/-- `context.go` lines 86–91: `GetAllOk`, again via `peekAttributes`. -/
def GetAllOk (s : StateB) (r : ReqId) : Option Nat × Bool :=
  match peekAttributes s r with
  | some ref => (some ref, true)
  | none => (none, false)

/-- `context.go` lines 94–96: `Delete` erases through `attributes(r)`. -/
def Delete (s : StateB) (r : ReqId) (k : AttrKey) : StateB :=
  let a := attributes s r
  { a.2 with heap := hupd a.2.heap a.1 (aerase (a.2.heap a.1) k) }

/-- `context.go` lines 102–112: `Clear`/`clear` delete every key of the
attached store in place (the request stays decorated). -/
def Clear (s : StateB) (r : ReqId) : StateB :=
  let a := attributes s r
  { a.2 with heap := hupd a.2.heap a.1 [] }

/-- `context.go` lines 123–125: `Purge(maxAge)` is `return 0` — it reads
and writes nothing. -/
def Purge (s : StateB) (maxAge : Int) : StateB × Int :=
  (s, 0)

/-- `context.go` lines 129–134: `ClearHandler` with `defer Clear(r)`. -/
def ClearHandler (h : ReqId → StateB → StateB × Outcome) :
    ReqId → StateB → StateB × Outcome :=
  fun r s => (Clear (h r s).1 r, (h r s).2)

end Attached

namespace RegistryRef

/-!
Reference-semantics model of `src/unnamed/part_002`, used for the
defensive-copy claim about `GetAll`: Go maps are reference values, so
here the registry's stores live in an explicit heap and `data` maps a
request to its store's address.  `GetAll` allocates a fresh address and
copies the store's contents into it, exactly as the source's
`result := make(...); for k, v := range context { result[k] = v }`.
-/

/-- The `part_002` package state with store objects held by address. -/
structure RState where
  heap : Nat → Store
  next : Nat
  data : List (ReqId × Nat)
  datat : List (ReqId × Int)

/-- The state at process start. -/
def RState.init : RState := ⟨fun _ => [], 0, [], []⟩

/-- Every store address in `data` has been allocated.  This holds in all
reachable states: `Set` is the only operation putting addresses into
`data`, and it allocates them below `next`. -/
def wf (s : RState) : Prop := ∀ p ∈ s.data, p.2 < s.next

instance (s : RState) : Decidable (wf s) :=
  List.decidableBAll _ s.data

/-- `part_002` `Set`: write into the existing store object, or allocate a
fresh one (recording the timestamp) and write into it. -/
def Set (s : RState) (now : Int) (r : ReqId) (k : AttrKey) (v : GoVal) : RState :=
  match alookup s.data r with
  | some ρ => { s with heap := hupd s.heap ρ (aset (s.heap ρ) k v) }
  | none =>
      ⟨hupd s.heap s.next (aset ([] : Store) k v), s.next + 1,
       aset s.data r s.next, aset s.datat r now⟩

/-- `part_002` `GetOk`, reading through the store address. -/
def GetOk (s : RState) (r : ReqId) (k : AttrKey) : GoVal × Bool :=
  match alookup s.data r with
  | some ρ =>
      match alookup (s.heap ρ) k with
      | some v => (v, true)
      | none => (GoVal.nil, false)
  | none => (GoVal.nil, false)

/-- `part_002` `GetAll`: allocate a fresh map object and copy the store's
contents into it; return its address (`none` for an unknown request). -/
def GetAll (s : RState) (r : ReqId) : Option Nat × RState :=
  match alookup s.data r with
  | some ρ =>
      (some s.next, { s with heap := hupd s.heap s.next (s.heap ρ), next := s.next + 1 })
  | none => (none, s)

/-- `part_002` `Delete`: erase inside the existing store object. -/
def Delete (s : RState) (r : ReqId) (k : AttrKey) : RState :=
  match alookup s.data r with
  | some ρ => { s with heap := hupd s.heap ρ (aerase (s.heap ρ) k) }
  | none => s

/-- `part_002` `Clear`: drop the registry entries; the store object
itself survives on the heap (so maps previously handed out stay valid). -/
def Clear (s : RState) (r : ReqId) : RState :=
  { s with data := aerase s.data r, datat := aerase s.datat r }

/-- A caller writing a key into a map value it holds a reference to
(e.g. the map returned by `GetAll`); not an operation of the package. -/
def mutate (s : RState) (ρ : Nat) (k : AttrKey) (v : GoVal) : RState :=
  { s with heap := hupd s.heap ρ (aset (s.heap ρ) k v) }

end RegistryRef

@[simp]
theorem alookup_nil {α β : Type} [DecidableEq α] (x : α) :
    alookup ([] : List (α × β)) x = none := rfl

@[simp]
theorem alookup_aset_same {α β : Type} [DecidableEq α]
    (l : List (α × β)) (x : α) (y : β) : alookup (aset l x y) x = some y := by
  induction l with
  | nil => simp [aset, alookup]
  | cons hd tl ih =>
    obtain ⟨a, b⟩ := hd
    by_cases hax : a = x
    · simp [aset, hax, alookup]
    · simp [aset, hax, alookup, ih]

@[simp]
theorem alookup_aset_ne {α β : Type} [DecidableEq α]
    (l : List (α × β)) (x x' : α) (y : β) (h : x' ≠ x) :
    alookup (aset l x y) x' = alookup l x' := by
  induction l with
  | nil => simp [aset, alookup, Ne.symm h]
  | cons hd tl ih =>
    obtain ⟨a, b⟩ := hd
    by_cases hax : a = x
    · simp [aset, hax, alookup, Ne.symm h]
    · simp [aset, hax, alookup, ih]

@[simp]
theorem alookup_aerase_same {α β : Type} [DecidableEq α]
    (l : List (α × β)) (x : α) : alookup (aerase l x) x = none := by
  induction l with
  | nil => simp [aerase]
  | cons hd tl ih =>
    obtain ⟨a, b⟩ := hd
    by_cases hax : a = x
    · simp [aerase, hax, ih]
    · simp [aerase, hax, alookup, ih]

@[simp]
theorem alookup_aerase_ne {α β : Type} [DecidableEq α]
    (l : List (α × β)) (x x' : α) (h : x' ≠ x) :
    alookup (aerase l x) x' = alookup l x' := by
  induction l with
  | nil => simp [aerase]
  | cons hd tl ih =>
    obtain ⟨a, b⟩ := hd
    by_cases hax : a = x
    · simp [aerase, hax, alookup, ih, Ne.symm h]
    · simp [aerase, hax, alookup, ih]

theorem aerase_of_alookup_none {α β : Type} [DecidableEq α]
    (l : List (α × β)) (x : α) (h : alookup l x = none) : aerase l x = l := by
  induction l with
  | nil => simp [aerase]
  | cons hd tl ih =>
    obtain ⟨a, b⟩ := hd
    by_cases hax : a = x
    · simp [alookup, hax] at h
    · simp [alookup, hax] at h
      simp [aerase, hax, ih h]

theorem aerase_aerase {α β : Type} [DecidableEq α] (l : List (α × β)) (x : α) :
    aerase (aerase l x) x = aerase l x :=
  aerase_of_alookup_none _ _ (alookup_aerase_same l x)

/-- `alookup` through a filter whose predicate depends only on the key. -/
theorem alookup_filter_keyfun {α β : Type} [DecidableEq α]
    (q : α → Bool) (l : List (α × β)) (x : α) :
    alookup (l.filter fun p => q p.1) x = if q x then alookup l x else none := by
  induction l with
  | nil => simp [alookup]
  | cons hd tl ih =>
    obtain ⟨a, b⟩ := hd
    by_cases hq : q a
    · by_cases hax : a = x
      · subst hax
        simp [List.filter, hq, alookup]
      · simp [List.filter, hq, alookup, hax, ih]
    · by_cases hax : a = x
      · subst hax
        simp [List.filter, hq, alookup, ih]
      · simp [List.filter, hq, alookup, hax, ih]

/-- A filter and its complement partition a list's length. -/
theorem filter_length_partition {γ : Type} (p : γ → Bool) (l : List γ) :
    (l.filter fun a => ! p a).length + (l.filter p).length = l.length := by
  induction l with
  | nil => simp
  | cons hd tl ih =>
    by_cases hp : p hd <;> simp [List.filter, hp] <;> omega

@[simp]
theorem hupd_same (h : Nat → Store) (ref : Nat) (st : Store) :
    hupd h ref st ref = st := by simp [hupd]

@[simp]
theorem hupd_ne (h : Nat → Store) (ref : Nat) (st : Store) (ρ : Nat)
    (hρ : ρ ≠ ref) : hupd h ref st ρ = h ρ := by simp [hupd, hρ]

theorem hupd_hupd (h : Nat → Store) (ref : Nat) (st st' : Store) :
    hupd (hupd h ref st) ref st' = hupd h ref st' := by
  funext ρ
  by_cases hρ : ρ = ref <;> simp [hupd, hρ]

theorem mem_of_alookup {α β : Type} [DecidableEq α]
    (l : List (α × β)) (x : α) (y : β) (h : alookup l x = some y) : (x, y) ∈ l := by
  induction l with
  | nil => simp [alookup] at h
  | cons hd tl ih =>
    obtain ⟨a, b⟩ := hd
    by_cases hax : a = x
    · subst hax
      simp [alookup] at h
      simp [h]
    · simp [alookup, hax] at h
      simp [ih h]

/-- C1: immediately after `Set(r, k, v)` — for any value `v`, the Go
`nil` value included — `Get(r, k)` returns `v` and `GetOk(r, k)` returns
`(v, true)`, in the registry variant (`part_002`) and in the
attached-store variant (`context.go`) alike. -/
theorem C1_set_get_roundtrip (sA : Registry.StateA) (sB : Attached.StateB)
    (now : Int) (r : ReqId) (k : AttrKey) (v : GoVal) :
    Registry.Get (Registry.Set sA now r k v) r k = v ∧
    Registry.GetOk (Registry.Set sA now r k v) r k = (v, true) ∧
    (Attached.Get (Attached.Set sB r k v) r k).1 = v ∧
    (Attached.GetOk (Attached.Set sB r k v) r k).1 = (v, true) := by
  refine ⟨?_, ?_, ?_, ?_⟩
  · cases hd : alookup sA.data r <;>
      simp [Registry.Set, Registry.Get, hd]
  · cases hd : alookup sA.data r <;>
      simp [Registry.Set, Registry.GetOk, hd]
  · cases hb : alookup sB.bodies r <;>
      simp [Attached.Set, Attached.Get, Attached.attributes, hb]
  · cases hb : alookup sB.bodies r <;>
      simp [Attached.Set, Attached.GetOk, Attached.attributes, hb]

/-- C2: reading a key that is not present in the request's store (never
set, deleted, or cleared) returns the `nil` sentinel from `Get` and
`(nil, false)` from `GetOk`, and succeeds even when the request has no
store at all; likewise `Get` of the older keyed registry (`part_001`)
returns `nil` for a missing entry. -/
theorem C2_unset_reads_absent (sA : Registry.StateA) (s1 : KeyedRegistry.State1)
    (r : ReqId) (k : AttrKey)
    (hA : ∀ st, alookup sA.data r = some st → alookup st k = none)
    (h1 : alookup s1.data (r, k) = none) :
    Registry.Get sA r k = GoVal.nil ∧
    Registry.GetOk sA r k = (GoVal.nil, false) ∧
    KeyedRegistry.Get s1 r k = GoVal.nil := by
  refine ⟨?_, ?_, ?_⟩
  · cases hd : alookup sA.data r with
    | none => simp [Registry.Get, hd]
    | some st => simp [Registry.Get, hd, hA st hd]
  · cases hd : alookup sA.data r with
    | none => simp [Registry.GetOk, hd]
    | some st => simp [Registry.GetOk, hd, hA st hd]
  · simp [KeyedRegistry.Get, h1]

theorem C2_unset_reads_absent_witness :
    (∀ st, alookup (⟨[(0, [(1, GoVal.num 5)])], [(0, 3)]⟩ : Registry.StateA).data 0 = some st →
      alookup st 2 = none) ∧
    alookup (⟨[((0, 1), GoVal.num 5)], [(0, 3)]⟩ : KeyedRegistry.State1).data (0, 2) = none ∧
    Registry.Get ⟨[(0, [(1, GoVal.num 5)])], [(0, 3)]⟩ 0 2 = GoVal.nil ∧
    Registry.GetOk ⟨[(0, [(1, GoVal.num 5)])], [(0, 3)]⟩ 0 2 = (GoVal.nil, false) ∧
    KeyedRegistry.Get ⟨[((0, 1), GoVal.num 5)], [(0, 3)]⟩ 0 2 = GoVal.nil := by
  have hA : ∀ st, alookup (⟨[(0, [(1, GoVal.num 5)])], [(0, 3)]⟩ : Registry.StateA).data 0 = some st →
      alookup st 2 = none := by
    intro st hst
    have hst' : some [(1, GoVal.num 5)] = some st := hst
    cases hst'
    decide
  have h1 : alookup (⟨[((0, 1), GoVal.num 5)], [(0, 3)]⟩ : KeyedRegistry.State1).data (0, 2) = none := by
    decide
  have main := C2_unset_reads_absent _ _ 0 2 hA h1
  exact ⟨hA, h1, main.1, main.2.1, main.2.2⟩

/-- C5 counterexample: in `part_001` (a cited source), `data` is keyed by
`(request, key)` pairs, so `Purge(0)` returns the number of stored pairs,
not the number of request entries: with a single request (one store, one
timestamp) holding two keys, `Purge(0)` returns 2, which differs from the
one request entry that existed before the call. -/
theorem C5_cex_part001_purge_counts_pairs :
    (KeyedRegistry.Purge
      ⟨[((0, 1), GoVal.num 5), ((0, 2), GoVal.num 6)], [(0, 7)]⟩ 100 0).2 = 2 ∧
    (⟨[((0, 1), GoVal.num 5), ((0, 2), GoVal.num 6)], [(0, 7)]⟩ :
      KeyedRegistry.State1).datat.length = 1 ∧
    (KeyedRegistry.Purge
      ⟨[((0, 1), GoVal.num 5), ((0, 2), GoVal.num 6)], [(0, 7)]⟩ 100 0).2 ≠
    (⟨[((0, 1), GoVal.num 5), ((0, 2), GoVal.num 6)], [(0, 7)]⟩ :
      KeyedRegistry.State1).datat.length := by
  refine ⟨by decide, by decide, by decide⟩

/-- C5 amended: `Purge(maxAge)` with `maxAge <= 0` empties the whole
registry — every request's store and timestamp — and returns the number
of registry entries that existed before, where an entry is a per-request
store in `part_002` but a `(request, key)` pair in `part_001` (so there
the count can exceed the number of requests); afterwards every read is
absent (`GetAll` in `part_002`, `Get` in `part_001`) and any further
`Purge` returns 0 in both. -/
theorem C5_purge_nonpositive_drops_all (s : Registry.StateA)
    (s1 : KeyedRegistry.State1)
    (now now2 maxAge maxAge2 : Int) (h : maxAge ≤ 0) :
    (Registry.Purge s now maxAge).2 = s.data.length ∧
    (Registry.Purge s now maxAge).1 = Registry.StateA.empty ∧
    (∀ r, Registry.GetAll (Registry.Purge s now maxAge).1 r = none) ∧
    (Registry.Purge (Registry.Purge s now maxAge).1 now2 maxAge2).2 = 0 ∧
    (KeyedRegistry.Purge s1 now maxAge).2 = s1.data.length ∧
    (KeyedRegistry.Purge s1 now maxAge).1 = KeyedRegistry.State1.empty ∧
    (∀ r k, KeyedRegistry.Get (KeyedRegistry.Purge s1 now maxAge).1 r k = GoVal.nil) ∧
    (KeyedRegistry.Purge (KeyedRegistry.Purge s1 now maxAge).1 now2 maxAge2).2 = 0 := by
  refine ⟨?_, ?_, ?_, ?_, ?_, ?_, ?_, ?_⟩
  · simp [Registry.Purge, h]
  · simp [Registry.Purge, h]
  · intro r
    simp [Registry.Purge, h, Registry.GetAll, Registry.StateA.empty]
  · by_cases h2 : maxAge2 ≤ 0 <;>
      simp [Registry.Purge, h, h2, Registry.StateA.empty]
  · simp [KeyedRegistry.Purge, h]
  · simp [KeyedRegistry.Purge, h]
  · intro r k
    simp [KeyedRegistry.Purge, h, KeyedRegistry.Get, KeyedRegistry.State1.empty]
  · by_cases h2 : maxAge2 ≤ 0 <;>
      simp [KeyedRegistry.Purge, h, h2, KeyedRegistry.State1.empty]

theorem C5_purge_nonpositive_drops_all_witness :
    ((0 : Int) ≤ 0) ∧
    (Registry.Purge ⟨[(0, [(1, GoVal.num 2)]), (4, [])], [(0, 5), (4, 6)]⟩ 100 0).2 = 2 ∧
    (Registry.Purge ⟨[(0, [(1, GoVal.num 2)]), (4, [])], [(0, 5), (4, 6)]⟩ 100 0).1 =
      Registry.StateA.empty ∧
    (Registry.Purge (Registry.Purge ⟨[(0, [(1, GoVal.num 2)]), (4, [])], [(0, 5), (4, 6)]⟩ 100 0).1
      7 30).2 = 0 ∧
    (KeyedRegistry.Purge
      ⟨[((0, 1), GoVal.num 5), ((3, 2), GoVal.nil)], [(0, 7), (3, 8)]⟩ 100 0).2 = 2 ∧
    (KeyedRegistry.Purge
      ⟨[((0, 1), GoVal.num 5), ((3, 2), GoVal.nil)], [(0, 7), (3, 8)]⟩ 100 0).1 =
      KeyedRegistry.State1.empty := by
  have main := C5_purge_nonpositive_drops_all
    ⟨[(0, [(1, GoVal.num 2)]), (4, [])], [(0, 5), (4, 6)]⟩
    ⟨[((0, 1), GoVal.num 5), ((3, 2), GoVal.nil)], [(0, 7), (3, 8)]⟩
    100 7 0 30 (by decide)
  exact ⟨by decide, main.1, main.2.1, main.2.2.2.1,
    main.2.2.2.2.1, main.2.2.2.2.2.1⟩

/-- C7: in the registry variants, the creation timestamp of a request is
recorded by the first `Set` that creates its store (`part_002`), or by
the first `Set` when no timestamp exists (`part_001`); any later `Set`
leaves the timestamp map unchanged, `Delete` never touches it, the pure
readers cannot touch it, and `Clear` removes it together with the
store. -/
theorem C7_timestamp_immutable (sA : Registry.StateA) (s1 : KeyedRegistry.State1)
    (now : Int) (r : ReqId) (k : AttrKey) (v : GoVal) :
    (alookup sA.data r = none → alookup (Registry.Set sA now r k v).datat r = some now) ∧
    (∀ st, alookup sA.data r = some st → (Registry.Set sA now r k v).datat = sA.datat) ∧
    (Registry.Delete sA r k).datat = sA.datat ∧
    alookup (Registry.Clear sA r).datat r = none ∧
    (alookup s1.datat r = none → alookup (KeyedRegistry.Set s1 now r k v).datat r = some now) ∧
    (∀ t, alookup s1.datat r = some t → (KeyedRegistry.Set s1 now r k v).datat = s1.datat) := by
  refine ⟨?_, ?_, ?_, ?_, ?_, ?_⟩
  · intro hd
    simp [Registry.Set, hd]
  · intro st hd
    simp [Registry.Set, hd]
  · cases hd : alookup sA.data r <;> simp [Registry.Delete, hd]
  · simp [Registry.Clear]
  · intro ht
    simp [KeyedRegistry.Set, ht]
  · intro t ht
    simp [KeyedRegistry.Set, ht]

theorem C7_timestamp_immutable_witness :
    alookup (⟨[], []⟩ : Registry.StateA).data 0 = none ∧
    alookup (Registry.Set ⟨[], []⟩ 5 0 1 (GoVal.num 2)).datat 0 = some 5 ∧
    alookup (⟨[], [(0, 4)]⟩ : KeyedRegistry.State1).datat 0 = some 4 ∧
    (KeyedRegistry.Set ⟨[], [(0, 4)]⟩ 9 0 1 GoVal.nil).datat = [(0, 4)] := by
  have main := C7_timestamp_immutable ⟨[], []⟩ ⟨[], [(0, 4)]⟩ 5 0 1 (GoVal.num 2)
  have main1 := C7_timestamp_immutable ⟨[], []⟩ ⟨[], [(0, 4)]⟩ 9 0 1 GoVal.nil
  exact ⟨by decide, main.1 (by decide), by decide,
    main1.2.2.2.2.2 4 (by decide)⟩

/-- C8: `ClearHandler(h)` preserves the behaviour of `h` (its outcome,
normal return or propagating panic, and its own state effects) and runs
`Clear(r)` after it on every exit path, so that afterwards no stored key
of `r` is retrievable, in both variants. -/
theorem C8_clearhandler_clears_always
    (hA : ReqId → Registry.StateA → Registry.StateA × Outcome)
    (hB : ReqId → Attached.StateB → Attached.StateB × Outcome)
    (r : ReqId) (sA : Registry.StateA) (sB : Attached.StateB) (k : AttrKey) :
    (Registry.ClearHandler hA r sA).2 = (hA r sA).2 ∧
    (Registry.ClearHandler hA r sA).1 = Registry.Clear (hA r sA).1 r ∧
    Registry.GetOk (Registry.ClearHandler hA r sA).1 r k = (GoVal.nil, false) ∧
    (Attached.ClearHandler hB r sB).2 = (hB r sB).2 ∧
    (Attached.ClearHandler hB r sB).1 = Attached.Clear (hB r sB).1 r ∧
    (Attached.GetOk (Attached.ClearHandler hB r sB).1 r k).1 = (GoVal.nil, false) := by
  refine ⟨rfl, rfl, ?_, rfl, rfl, ?_⟩
  · simp [Registry.ClearHandler, Registry.Clear, Registry.GetOk]
  · cases hb : alookup ((hB r sB).1).bodies r <;>
      simp [Attached.ClearHandler, Attached.Clear, Attached.GetOk,
        Attached.attributes, hb]

theorem lookup_purge_data (s : Registry.StateA) (c : Int) (r : ReqId) :
    alookup (s.data.filter fun p => ! Registry.stale s c p.1) r =
      if ! Registry.stale s c r then alookup s.data r else none :=
  alookup_filter_keyfun (fun y => ! Registry.stale s c y) s.data r

theorem lookup_purge_datat (s : Registry.StateA) (c : Int) (r : ReqId) :
    alookup (s.datat.filter fun q =>
        ! ((alookup s.data q.1).isSome && Registry.stale s c q.1)) r =
      if ! ((alookup s.data r).isSome && Registry.stale s c r) then
        alookup s.datat r
      else none :=
  alookup_filter_keyfun
    (fun y => ! ((alookup s.data y).isSome && Registry.stale s c y)) s.datat r

/-- C6: `Purge(maxAge)` with `maxAge > 0` (registry variant) removes
exactly the requests whose recorded creation timestamp is strictly below
the cutoff `now - maxAge` (a timestamp equal to the cutoff is kept),
keeps every other entry value-for-value — store and timestamp — and
returns exactly the number of entries removed. -/
theorem C6_purge_positive_cutoff (s : Registry.StateA) (now maxAge : Int)
    (h : 0 < maxAge) :
    (∀ r st, alookup s.data r = some st →
      (Registry.tsOrZero s r < now - maxAge →
        alookup (Registry.Purge s now maxAge).1.data r = none ∧
        alookup (Registry.Purge s now maxAge).1.datat r = none) ∧
      (¬ Registry.tsOrZero s r < now - maxAge →
        alookup (Registry.Purge s now maxAge).1.data r = some st ∧
        alookup (Registry.Purge s now maxAge).1.datat r = alookup s.datat r)) ∧
    (Registry.Purge s now maxAge).2 =
      (s.data.filter fun p => Registry.stale s (now - maxAge) p.1).length ∧
    (Registry.Purge s now maxAge).1.data.length + (Registry.Purge s now maxAge).2 =
      s.data.length := by
  have hneg : ¬ maxAge ≤ 0 := not_le.mpr h
  refine ⟨?_, ?_, ?_⟩
  · intro r st hd
    constructor
    · intro hts
      have hstale : Registry.stale s (now - maxAge) r = true := by
        simp [Registry.stale, hts]
      constructor
      · rw [show (Registry.Purge s now maxAge).1.data =
            s.data.filter (fun p => ! Registry.stale s (now - maxAge) p.1) by
              simp [Registry.Purge, hneg]]
        rw [lookup_purge_data]
        simp [hstale]
      · rw [show (Registry.Purge s now maxAge).1.datat =
            s.datat.filter (fun q =>
              ! ((alookup s.data q.1).isSome && Registry.stale s (now - maxAge) q.1)) by
              simp [Registry.Purge, hneg]]
        rw [lookup_purge_datat]
        simp [hstale, hd]
    · intro hts
      have hstale : Registry.stale s (now - maxAge) r = false := by
        simp [Registry.stale, hts]
      constructor
      · rw [show (Registry.Purge s now maxAge).1.data =
            s.data.filter (fun p => ! Registry.stale s (now - maxAge) p.1) by
              simp [Registry.Purge, hneg]]
        rw [lookup_purge_data]
        simp [hstale, hd]
      · rw [show (Registry.Purge s now maxAge).1.datat =
            s.datat.filter (fun q =>
              ! ((alookup s.data q.1).isSome && Registry.stale s (now - maxAge) q.1)) by
              simp [Registry.Purge, hneg]]
        rw [lookup_purge_datat]
        simp [hstale]
  · simp [Registry.Purge, hneg]
  · rw [show (Registry.Purge s now maxAge).1.data =
        s.data.filter (fun p => ! Registry.stale s (now - maxAge) p.1) by
          simp [Registry.Purge, hneg],
      show (Registry.Purge s now maxAge).2 =
        (s.data.filter fun p => Registry.stale s (now - maxAge) p.1).length by
          simp [Registry.Purge, hneg]]
    exact filter_length_partition _ s.data

theorem C6_purge_positive_cutoff_witness :
    ((0 : Int) < 10) ∧
    alookup (Registry.Purge ⟨[(0, [(1, GoVal.num 2)]), (4, [(2, GoVal.nil)])],
      [(0, 80), (4, 95)]⟩ 100 10).1.data 0 = none ∧
    alookup (Registry.Purge ⟨[(0, [(1, GoVal.num 2)]), (4, [(2, GoVal.nil)])],
      [(0, 80), (4, 95)]⟩ 100 10).1.data 4 = some [(2, GoVal.nil)] ∧
    (Registry.Purge ⟨[(0, [(1, GoVal.num 2)]), (4, [(2, GoVal.nil)])],
      [(0, 80), (4, 95)]⟩ 100 10).2 = 1 := by
  have main := C6_purge_positive_cutoff
    ⟨[(0, [(1, GoVal.num 2)]), (4, [(2, GoVal.nil)])], [(0, 80), (4, 95)]⟩
    100 10 (by decide)
  refine ⟨by decide, ?_, ?_, ?_⟩
  · exact ((main.1 0 [(1, GoVal.num 2)] (by decide)).1 (by decide)).1
  · exact ((main.1 4 [(2, GoVal.nil)] (by decide)).2 (by decide)).1
  · exact main.2.1.trans (by decide)

/-- C3 counterexample: in the attached-store variant (`context.go`, one
of the claim's cited sources), `Clear` on a request whose store was never
created is not a no-op: before the call `GetAllOk` reports the request
unknown, afterwards it reports it registered (with an empty store). -/
theorem C3_cex_attached_clear_registers :
    Attached.GetAllOk Attached.StateB.init 7 = (none, false) ∧
    Attached.GetAllOk (Attached.Clear Attached.StateB.init 7) 7 = (some 0, true) := by
  constructor <;> rfl

/-- C3 amended: `Clear(r)` twice in a row equals `Clear(r)` once in both
variants, and in the registry variant `Clear` of a request with no store
and no timestamp is a no-op; in the attached-store variant, however,
`Clear` of an undecorated request attaches a fresh empty store — after
it, `GetAllOk` reports the request registered with an empty mapping —
though no key becomes retrievable. -/
theorem C3_clear_idempotent_amended (sA : Registry.StateA) (sB : Attached.StateB)
    (r : ReqId)
    (hA : alookup sA.data r = none) (hA2 : alookup sA.datat r = none)
    (hB : alookup sB.bodies r = none) :
    (∀ (t : Registry.StateA) (r' : ReqId),
      Registry.Clear (Registry.Clear t r') r' = Registry.Clear t r') ∧
    Registry.Clear sA r = sA ∧
    (∀ (u : Attached.StateB) (r' : ReqId),
      Attached.Clear (Attached.Clear u r') r' = Attached.Clear u r') ∧
    Attached.GetAllOk (Attached.Clear sB r) r = (some sB.next, true) ∧
    Attached.deref (Attached.Clear sB r) sB.next = [] ∧
    (∀ k, (Attached.GetOk (Attached.Clear sB r) r k).1 = (GoVal.nil, false)) := by
  refine ⟨?_, ?_, ?_, ?_, ?_, ?_⟩
  · intro t r'
    simp [Registry.Clear, aerase_aerase]
  · cases sA with
    | mk d dt =>
      simp only [Registry.Clear]
      simp only at hA hA2
      rw [aerase_of_alookup_none _ _ hA, aerase_of_alookup_none _ _ hA2]
  · intro u r'
    cases hb : alookup u.bodies r' with
    | some ρ =>
      simp [Attached.Clear, Attached.attributes, hb, hupd_hupd]
    | none =>
      simp [Attached.Clear, Attached.attributes, hb, hupd_hupd, hupd_same]
  · simp [Attached.Clear, Attached.attributes, hB, Attached.GetAllOk,
      Attached.peekAttributes]
  · simp [Attached.Clear, Attached.attributes, hB, Attached.deref]
  · intro k
    simp [Attached.Clear, Attached.attributes, hB, Attached.GetOk]

theorem C3_clear_idempotent_amended_witness :
    alookup (⟨[(1, [(2, GoVal.num 3)])], [(1, 9)]⟩ : Registry.StateA).data 0 = none ∧
    alookup (⟨[(1, [(2, GoVal.num 3)])], [(1, 9)]⟩ : Registry.StateA).datat 0 = none ∧
    alookup Attached.StateB.init.bodies 0 = none ∧
    Registry.Clear ⟨[(1, [(2, GoVal.num 3)])], [(1, 9)]⟩ 0 =
      (⟨[(1, [(2, GoVal.num 3)])], [(1, 9)]⟩ : Registry.StateA) ∧
    Attached.GetAllOk (Attached.Clear Attached.StateB.init 0) 0 = (some 0, true) := by
  have main := C3_clear_idempotent_amended
    ⟨[(1, [(2, GoVal.num 3)])], [(1, 9)]⟩ Attached.StateB.init 0
    (by decide) (by decide) rfl
  exact ⟨by decide, by decide, rfl, main.2.1, main.2.2.2.1⟩

/-- C4 counterexample: in the attached-store variant (`context.go`, one
of the claim's cited sources), `GetAll` returns the attached map itself,
not a defensive copy: after `Set(r, 1, 10)`, `GetAll(r)` hands out the
store object (address 0), and a later `Set(r, 2, 20)` changes the
contents seen through that previously returned mapping. -/
theorem C4_cex_attached_getall_alias :
    Attached.GetAll (Attached.Set Attached.StateB.init 0 1 (GoVal.num 10)) 0 = some 0 ∧
    Attached.deref (Attached.Set Attached.StateB.init 0 1 (GoVal.num 10)) 0 =
      [(1, GoVal.num 10)] ∧
    Attached.deref
      (Attached.Set (Attached.Set Attached.StateB.init 0 1 (GoVal.num 10)) 0 2 (GoVal.num 20)) 0 =
      [(1, GoVal.num 10), (2, GoVal.num 20)] := by
  refine ⟨rfl, rfl, rfl⟩

/-- C4 amended: in the registry variant, `GetAll` returns a fresh map
whose contents equal the store's at call time; later `Set`/`Delete`/
`Clear` leave the returned map unchanged, and writing into the returned
map changes no observation of the registry.  For a request with no store,
`GetAll` returns nil and `GetAllOk` reports false.  In the attached-store
variant, however, `GetAll` returns the attached store itself, so the
returned mapping aliases the store. -/
theorem C4_getall_defensive_amended (s : RegistryRef.RState) (r : ReqId)
    (m : Nat) (s1 : RegistryRef.RState)
    (hwf : RegistryRef.wf s)
    (h : RegistryRef.GetAll s r = (some m, s1)) :
    (∃ ρ, alookup s.data r = some ρ ∧ s1.heap m = s.heap ρ) ∧
    (∀ now r' k v, (RegistryRef.Set s1 now r' k v).heap m = s1.heap m) ∧
    (∀ r' k, (RegistryRef.Delete s1 r' k).heap m = s1.heap m) ∧
    (∀ r', (RegistryRef.Clear s1 r').heap m = s1.heap m) ∧
    (∀ k v r' k', RegistryRef.GetOk (RegistryRef.mutate s1 m k v) r' k' =
      RegistryRef.GetOk s1 r' k') ∧
    (∀ (t : Registry.StateA) (r2 : ReqId), alookup t.data r2 = none →
      Registry.GetAll t r2 = none ∧ Registry.GetAllOk t r2 = ([], false)) ∧
    (∀ (u : Attached.StateB) (r3 : ReqId) (ρ3 : Nat),
      alookup u.bodies r3 = some ρ3 → Attached.GetAll u r3 = some ρ3) := by
  cases hd : alookup s.data r with
  | none => simp [RegistryRef.GetAll, hd] at h
  | some ρ =>
    simp only [RegistryRef.GetAll, hd] at h
    have hm : s.next = m := Option.some.inj (congrArg Prod.fst h)
    have hs := congrArg Prod.snd h
    simp only at hs
    subst hs
    subst hm
    have hρ : ρ < s.next := hwf (r, ρ) (mem_of_alookup _ _ _ hd)
    refine ⟨?_, ?_, ?_, ?_, ?_, ?_, ?_⟩
    · exact ⟨ρ, rfl, by simp⟩
    · intro now r' k v
      cases hd' : alookup s.data r' with
      | some ρ' =>
        have hρ' : ρ' < s.next := hwf (r', ρ') (mem_of_alookup _ _ _ hd')
        simp [RegistryRef.Set, hd', hupd_ne _ _ _ _ (Nat.ne_of_gt hρ').symm,
          Nat.ne_of_gt hρ']
      | none =>
        simp [RegistryRef.Set, hd', hupd_ne _ _ _ _ (Nat.lt_succ_self s.next).ne]
    · intro r' k
      cases hd' : alookup s.data r' with
      | some ρ' =>
        have hρ' : ρ' < s.next := hwf (r', ρ') (mem_of_alookup _ _ _ hd')
        simp [RegistryRef.Delete, hd', Nat.ne_of_gt hρ']
      | none =>
        simp [RegistryRef.Delete, hd']
    · intro r'
      simp [RegistryRef.Clear]
    · intro k v r' k'
      cases hd' : alookup s.data r' with
      | some ρ' =>
        have hρ' : ρ' < s.next := hwf (r', ρ') (mem_of_alookup _ _ _ hd')
        simp [RegistryRef.GetOk, RegistryRef.mutate, hd', hρ'.ne]
      | none =>
        simp [RegistryRef.GetOk, RegistryRef.mutate, hd']
    · intro t r2 ht
      simp [Registry.GetAll, Registry.GetAllOk, ht]
    · intro u r3 ρ3 hu
      simp [Attached.GetAll, Attached.peekAttributes, hu]

theorem C4_getall_defensive_amended_witness :
    RegistryRef.wf (RegistryRef.Set RegistryRef.RState.init 3 0 1 (GoVal.num 7)) ∧
    RegistryRef.GetAll (RegistryRef.Set RegistryRef.RState.init 3 0 1 (GoVal.num 7)) 0 =
      (some 1,
       (RegistryRef.GetAll (RegistryRef.Set RegistryRef.RState.init 3 0 1 (GoVal.num 7)) 0).2) ∧
    (∀ now r' k v,
      (RegistryRef.Set
        (RegistryRef.GetAll (RegistryRef.Set RegistryRef.RState.init 3 0 1 (GoVal.num 7)) 0).2
        now r' k v).heap 1 =
      (RegistryRef.GetAll (RegistryRef.Set RegistryRef.RState.init 3 0 1 (GoVal.num 7)) 0).2.heap 1) := by
  have hwf : RegistryRef.wf (RegistryRef.Set RegistryRef.RState.init 3 0 1 (GoVal.num 7)) := by
    decide
  refine ⟨hwf, rfl, ?_⟩
  exact (C4_getall_defensive_amended _ 0 1 _ hwf rfl).2.1

/-- C9 counterexample: `GetAll` and `GetAllOk` are public operations of
the attached-store variant, yet on a request whose body is undecorated
they only peek — they neither decorate the request nor register it, so
`GetAllOk` still reports the request unknown, contradicting the claim's
"every public operation". -/
theorem C9_cex_getall_does_not_register :
    Attached.GetAll Attached.StateB.init 0 = none ∧
    Attached.GetAllOk Attached.StateB.init 0 = (none, false) := by
  constructor <;> rfl

/-- C9 amended: the operations that reach the store through
`attributes` — `Set`, `Get`, `GetOk`, `Delete`, `Clear` — when applied to
a request whose body is not yet decorated, mutate the request: they
attach a wrapper carrying a fresh empty store, after which `GetAllOk`
reports the request registered (with an empty mapping for the non-`Set`
operations, `Get`/`GetOk` still reporting the key absent); `GetAll` and
`GetAllOk` only peek and leave an undecorated request unregistered. -/
theorem C9_attributes_ops_decorate_amended (s : Attached.StateB)
    (r : ReqId) (k : AttrKey) (v : GoVal)
    (hB : alookup s.bodies r = none) :
    (alookup (Attached.Set s r k v).bodies r = some s.next ∧
      Attached.GetAllOk (Attached.Set s r k v) r = (some s.next, true) ∧
      Attached.deref (Attached.Set s r k v) s.next = [(k, v)]) ∧
    (alookup (Attached.Get s r k).2.bodies r = some s.next ∧
      Attached.deref (Attached.Get s r k).2 s.next = [] ∧
      Attached.GetAllOk (Attached.Get s r k).2 r = (some s.next, true) ∧
      (Attached.Get s r k).1 = GoVal.nil) ∧
    (alookup (Attached.GetOk s r k).2.bodies r = some s.next ∧
      Attached.deref (Attached.GetOk s r k).2 s.next = [] ∧
      Attached.GetAllOk (Attached.GetOk s r k).2 r = (some s.next, true) ∧
      (Attached.GetOk s r k).1 = (GoVal.nil, false)) ∧
    (alookup (Attached.Delete s r k).bodies r = some s.next ∧
      Attached.deref (Attached.Delete s r k) s.next = [] ∧
      Attached.GetAllOk (Attached.Delete s r k) r = (some s.next, true)) ∧
    (alookup (Attached.Clear s r).bodies r = some s.next ∧
      Attached.deref (Attached.Clear s r) s.next = [] ∧
      Attached.GetAllOk (Attached.Clear s r) r = (some s.next, true)) ∧
    (Attached.GetAll s r = none ∧ Attached.GetAllOk s r = (none, false)) := by
  refine ⟨⟨?_, ?_, ?_⟩, ⟨?_, ?_, ?_, ?_⟩, ⟨?_, ?_, ?_, ?_⟩, ⟨?_, ?_, ?_⟩,
    ⟨?_, ?_, ?_⟩, ?_, ?_⟩ <;>
    simp [Attached.Set, Attached.Get, Attached.GetOk, Attached.Delete,
      Attached.Clear, Attached.GetAll, Attached.GetAllOk,
      Attached.peekAttributes, Attached.attributes, Attached.deref, hB,
      aerase, aset]

theorem C9_attributes_ops_decorate_amended_witness :
    alookup Attached.StateB.init.bodies 3 = none ∧
    alookup (Attached.Set Attached.StateB.init 3 1 GoVal.nil).bodies 3 = some 0 ∧
    Attached.GetAllOk (Attached.Clear Attached.StateB.init 3) 3 = (some 0, true) ∧
    Attached.GetAllOk Attached.StateB.init 3 = (none, false) := by
  have main := C9_attributes_ops_decorate_amended Attached.StateB.init 3 1 GoVal.nil rfl
  exact ⟨rfl, main.1.1, main.2.2.2.2.1.2.2, main.2.2.2.2.2.2⟩

/-- C10: in the attached-store variant, `Purge` is `return 0`: it returns
0 for every `maxAge`, changes no state, and every retrievable key/value
pair is retrievable unchanged afterwards. -/
theorem C10_attached_purge_noop (s : Attached.StateB) (maxAge : Int)
    (r : ReqId) (k : AttrKey) :
    Attached.Purge s maxAge = (s, 0) ∧
    Attached.GetOk (Attached.Purge s maxAge).1 r k = Attached.GetOk s r k ∧
    Attached.GetAll (Attached.Purge s maxAge).1 r = Attached.GetAll s r := by
  exact ⟨rfl, rfl, rfl⟩
